import Mathlib

/-!
Verification of the simulation core of `grid3d.cpp`: a single ray particle
travelling outward from the centre of a cubic grid, spherical obstacles,
discrete per-tick collision and boundary detection with randomized reset,
and the orbiting camera controller of the main loop.

Modelling conventions: C++ `float` is modelled as `ℝ`; the process-wide
`rand()` stream is modelled by passing the (non-negative) integers drawn at
a reset as explicit parameters of the tick function; the `std::cout`
diagnostics of `Ray::update` are modelled as a tagged `Event` value returned
by the tick.  The vertex meshes of `Sphere::generateVertices` and everything
in `main` below the camera-angle handling are rendering collaborators with
no simulation state and are not part of the model.
-/

/-- Source: `const int GRID_SIZE = 5` (number of cells in each dimension). -/
def GRID_SIZE : ℕ := 5

/-- Source: `const float CELL_SIZE = 0.2f` (size of each cell). -/
def CELL_SIZE : ℝ := 0.2

/-- Source: `glm::radians`, degrees-to-radians conversion used by
`Ray::updatePosition` and the camera code. -/
noncomputable def radians (deg : ℝ) : ℝ := deg * (Real.pi / 180)

/-- Source: class `Sphere` — a static obstacle with centre `(x, y, z)` and
`radius`.  The precomputed render mesh (`vertices` / `generateVertices`) is
derived display data and carries no simulation state, so it is omitted. -/
structure Sphere where
  x : ℝ
  y : ℝ
  z : ℝ
  radius : ℝ

/-- Source: class `Ray` — the moving particle, in spherical coordinates
(`zenith` from vertical, `azimuth` in the horizontal plane from +x, both in
degrees), with cached Cartesian position `(x, y, z)`. -/
structure Ray where
  zenith : ℝ
  azimuth : ℝ
  currentLength : ℝ
  speed : ℝ
  gridHalfSize : ℝ
  x : ℝ
  y : ℝ
  z : ℝ

/-- Source: the `Ray()` constructor: zenith 45, azimuth 45, length 0,
speed 0.005, grid half size `(GRID_SIZE * CELL_SIZE) / 2`, position origin. -/
noncomputable def Ray.init : Ray :=
  { zenith := 45
    azimuth := 45
    currentLength := 0
    speed := 0.005
    gridHalfSize := ((GRID_SIZE : ℝ) * CELL_SIZE) / 2
    x := 0
    y := 0
    z := 0 }

/-- Source: `Ray::isOutsideCube` — true iff some coordinate magnitude
strictly exceeds `gridHalfSize`. -/
def Ray.isOutsideCube (s : Ray) : Prop :=
  |s.x| > s.gridHalfSize ∨ |s.y| > s.gridHalfSize ∨ |s.z| > s.gridHalfSize

/-- Source: `Ray::intersectsSphere` — squared distance from the current
position to the sphere centre is at most the radius squared. -/
def Ray.intersectsSphere (s : Ray) (sphereX sphereY sphereZ sphereRadius : ℝ) : Prop :=
  (s.x - sphereX) * (s.x - sphereX)
    + (s.y - sphereY) * (s.y - sphereY)
    + (s.z - sphereZ) * (s.z - sphereZ)
    ≤ sphereRadius * sphereRadius

/-- The spherical-to-Cartesian mapping computed by `Ray::updatePosition`:
`x = L·sin(φ)·cos(θ)`, `y = L·cos(φ)`, `z = L·sin(φ)·sin(θ)` with
`φ = radians zenith`, `θ = radians azimuth`, `L = currentLength`. -/
noncomputable def sphericalPos (zenith azimuth currentLength : ℝ) : ℝ × ℝ × ℝ :=
  (currentLength * Real.sin (radians zenith) * Real.cos (radians azimuth),
   currentLength * Real.cos (radians zenith),
   currentLength * Real.sin (radians zenith) * Real.sin (radians azimuth))

/-- Source: `Ray::updatePosition` — recompute the cached `(x, y, z)` from
`(zenith, azimuth, currentLength)`; no other field changes. -/
noncomputable def Ray.updatePosition (s : Ray) : Ray :=
  { s with
    x := (sphericalPos s.zenith s.azimuth s.currentLength).1
    y := (sphericalPos s.zenith s.azimuth s.currentLength).2.1
    z := (sphericalPos s.zenith s.azimuth s.currentLength).2.2 }

/-- Source: the first two lines of `Ray::update` —
`currentLength += speed; updatePosition();` — the pure kinematic step. -/
noncomputable def Ray.advance (s : Ray) : Ray :=
  Ray.updatePosition { s with currentLength := s.currentLength + s.speed }

/-- Source: the reset block of `Ray::update` (identical in the collision and
boundary branches): `currentLength = 0; x = y = z = 0;
zenith = rand() % 180; azimuth = rand() % 360;`.  `r1` and `r2` are the two
values drawn from `rand()`. -/
def Ray.reset (s : Ray) (r1 r2 : ℕ) : Ray :=
  { s with
    currentLength := 0
    x := 0
    y := 0
    z := 0
    zenith := ((r1 % 180 : ℕ) : ℝ)
    azimuth := ((r2 % 360 : ℕ) : ℝ) }

/-- The per-tick outcome reported (via `std::cout`) by `Ray::update`. -/
inductive Event where
  | traveling : Event
  | hitObstacle : Sphere → Event
  | hitBoundary : Event

open Classical in
/-- Source: the `for(const Sphere& sphere : spheres)` loop of `Ray::update`:
the first sphere in list order whose test succeeds, if any (the loop body
returns as soon as a hit is found). -/
noncomputable def Ray.findHit (s : Ray) : List Sphere → Option Sphere
  | [] => none
  | sphere :: rest =>
      if s.intersectsSphere sphere.x sphere.y sphere.z sphere.radius then some sphere
      else s.findHit rest

open Classical in
/-- Source: `Ray::update(spheres)` — advance, then the sphere loop (reset and
early return on the first hit), then the boundary check (reset if outside). -/
noncomputable def Ray.update (s : Ray) (r1 r2 : ℕ) (spheres : List Sphere) : Ray × Event :=
  match (s.advance).findHit spheres with
  | some sphere => ((s.advance).reset r1 r2, Event.hitObstacle sphere)
  | none =>
      if (s.advance).isOutsideCube then ((s.advance).reset r1 r2, Event.hitBoundary)
      else (s.advance, Event.traveling)

/-- The particle states reachable in the program: the constructed `Ray`,
followed by any number of `update` ticks (with arbitrary obstacle lists and
arbitrary `rand()` draws). -/
inductive Reachable : Ray → Prop where
  | init : Reachable Ray.init
  | step (r1 r2 : ℕ) (spheres : List Sphere) {s : Ray} :
      Reachable s → Reachable (s.update r1 r2 spheres).1

/-- Source: the camera state of `main` — `cameraTheta` (horizontal angle) and
`cameraPhi` (vertical angle). -/
structure Camera where
  cameraTheta : ℝ
  cameraPhi : ℝ

/-- Source: `const float rotationSpeed = 2.0f`. -/
def rotationSpeed : ℝ := 2

/-- The four per-frame key states polled by the main loop. -/
structure CamInput where
  keyRight : Bool
  keyLeft : Bool
  keyUp : Bool
  keyDown : Bool

/-- Source: the keyboard-handling block at the top of the main loop —
RIGHT/LEFT add/subtract `rotationSpeed` to `cameraTheta` unclamped; UP
applies `max(1.0f, cameraPhi - rotationSpeed)`; DOWN applies
`min(179.0f, cameraPhi + rotationSpeed)`. -/
noncomputable def cameraStep (c : Camera) (inp : CamInput) : Camera :=
  let t1 := if inp.keyRight then c.cameraTheta + rotationSpeed else c.cameraTheta
  let t2 := if inp.keyLeft then t1 - rotationSpeed else t1
  let p1 := if inp.keyUp then max 1 (c.cameraPhi - rotationSpeed) else c.cameraPhi
  let p2 := if inp.keyDown then min 179 (p1 + rotationSpeed) else p1
  { cameraTheta := t2, cameraPhi := p2 }

/-- Source: `cameraTheta = 45.0f; cameraPhi = 45.0f` at the start of `main`. -/
noncomputable def cameraInit : Camera :=
  { cameraTheta := 45, cameraPhi := 45 }

/-- The camera state after a sequence of frames with the given key inputs. -/
noncomputable def cameraRun (inputs : List CamInput) : Camera :=
  inputs.foldl cameraStep cameraInit

theorem radians_zero : radians 0 = 0 := by
  unfold radians; ring

theorem radians_one_eighty : radians 180 = Real.pi := by
  unfold radians; ring

theorem radians_ninety : radians 90 = Real.pi / 2 := by
  unfold radians; ring

theorem findHit_of_first (s : Ray) :
    ∀ (pre : List Sphere) (a : Sphere) (post : List Sphere),
      (∀ b ∈ pre, ¬ s.intersectsSphere b.x b.y b.z b.radius) →
      s.intersectsSphere a.x a.y a.z a.radius →
      s.findHit (pre ++ a :: post) = some a := by
  intro pre a post hpre ha
  induction pre with
  | nil => simp [Ray.findHit, ha]
  | cons b bs ih =>
      have hb : ¬ s.intersectsSphere b.x b.y b.z b.radius := hpre b (by simp)
      simp only [List.cons_append, Ray.findHit, if_neg hb]
      exact ih fun c hc => hpre c (by simp [hc])

theorem findHit_some_elim (s : Ray) :
    ∀ (spheres : List Sphere) (a : Sphere), s.findHit spheres = some a →
      ∃ pre post, spheres = pre ++ a :: post ∧
        s.intersectsSphere a.x a.y a.z a.radius ∧
        ∀ b ∈ pre, ¬ s.intersectsSphere b.x b.y b.z b.radius := by
  intro spheres
  induction spheres with
  | nil => intro a h; simp [Ray.findHit] at h
  | cons b bs ih =>
      intro a h
      by_cases hb : s.intersectsSphere b.x b.y b.z b.radius
      · refine ⟨[], bs, ?_, ?_, by simp⟩
        · simp only [Ray.findHit, if_pos hb, Option.some.injEq] at h
          simp [h]
        · simp only [Ray.findHit, if_pos hb, Option.some.injEq] at h
          rw [← h]; exact hb
      · simp only [Ray.findHit, if_neg hb] at h
        obtain ⟨pre, post, heq, hhit, hpre⟩ := ih a h
        refine ⟨b :: pre, post, by simp [heq], hhit, ?_⟩
        intro c hc
        rcases List.mem_cons.mp hc with rfl | hc
        · exact hb
        · exact hpre c hc

/-- Claim C4: the collision test scans the obstacle list in order; a single
obstacle is hit iff the squared Euclidean distance from the position to its
centre is at most its radius squared; when several obstacles contain the
position, exactly the first matching obstacle in list order is reported and
the scan stops, so no later obstacle is ever reported. -/
theorem findHit_first_match (s : Ray) (spheres : List Sphere) :
    (∀ sp : Sphere,
        s.intersectsSphere sp.x sp.y sp.z sp.radius ↔
          (s.x - sp.x) ^ 2 + (s.y - sp.y) ^ 2 + (s.z - sp.z) ^ 2 ≤ sp.radius ^ 2)
  ∧ (∀ (pre : List Sphere) (a : Sphere) (post : List Sphere),
        spheres = pre ++ a :: post →
        s.intersectsSphere a.x a.y a.z a.radius →
        (∀ b ∈ pre, ¬ s.intersectsSphere b.x b.y b.z b.radius) →
        s.findHit spheres = some a)
  ∧ (∀ a : Sphere, s.findHit spheres = some a →
        ∃ pre post, spheres = pre ++ a :: post ∧
          s.intersectsSphere a.x a.y a.z a.radius ∧
          ∀ b ∈ pre, ¬ s.intersectsSphere b.x b.y b.z b.radius) := by
  refine ⟨?_, ?_, ?_⟩
  · intro sp
    unfold Ray.intersectsSphere
    constructor <;> intro h <;> nlinarith [h]
  · intro pre a post heq ha hpre
    rw [heq]
    exact findHit_of_first s pre a post hpre ha
  · intro a h
    exact findHit_some_elim s spheres a h

/-- A ray sitting at the origin (the initial state) together with two
concentric spheres both containing the origin, used to exhibit first-match
ordering concretely. -/
def sphereInner : Sphere := { x := 0, y := 0, z := 0, radius := 1 }

/-- The second of the two overlapping spheres of the first-match example. -/
def sphereOuter : Sphere := { x := 0, y := 0, z := 0, radius := 2 }

theorem findHit_first_match_witness :
    Ray.init.findHit [sphereInner, sphereOuter] = some sphereInner :=
  (findHit_first_match Ray.init [sphereInner, sphereOuter]).2.1 [] sphereInner [sphereOuter]
    rfl
    (by norm_num [Ray.intersectsSphere, sphereInner, Ray.init])
    (by simp)

/-- Claim C6: the boundary test classifies a position as outside iff at least
one coordinate magnitude strictly exceeds `gridHalfSize`; a position all of
whose coordinate magnitudes are at most `gridHalfSize` (so in particular one
exactly equal to it, none exceeding) is classified as inside. -/
theorem isOutsideCube_strict (s : Ray) :
    (s.isOutsideCube ↔
       (s.gridHalfSize < |s.x| ∨ s.gridHalfSize < |s.y| ∨ s.gridHalfSize < |s.z|))
  ∧ ((|s.x| ≤ s.gridHalfSize ∧ |s.y| ≤ s.gridHalfSize ∧ |s.z| ≤ s.gridHalfSize) →
       ¬ s.isOutsideCube) := by
  constructor
  · exact Iff.rfl
  · intro h hout
    rcases hout with h1 | h1 | h1 <;>
      [exact absurd h.1 (not_le.mpr h1);
       exact absurd h.2.1 (not_le.mpr h1);
       exact absurd h.2.2 (not_le.mpr h1)]

/-- A ray whose x-coordinate magnitude equals the grid half size exactly. -/
noncomputable def rayOnFace : Ray :=
  { zenith := 45, azimuth := 45, currentLength := 0.5, speed := 0.005,
    gridHalfSize := 0.5, x := 0.5, y := 0, z := 0 }

theorem isOutsideCube_strict_witness : ¬ rayOnFace.isOutsideCube :=
  (isOutsideCube_strict rayOnFace).2 (by norm_num [rayOnFace, abs_le])

theorem cameraStep_phi_bounds (c : Camera) (inp : CamInput)
    (h1 : 1 ≤ c.cameraPhi) (h2 : c.cameraPhi ≤ 179) :
    1 ≤ (cameraStep c inp).cameraPhi ∧ (cameraStep c inp).cameraPhi ≤ 179 := by
  unfold cameraStep rotationSpeed
  rcases inp with ⟨r, l, u, d⟩
  dsimp only
  cases u <;> cases d <;> simp only [Bool.false_eq_true, if_false, if_true]
  · exact ⟨h1, h2⟩
  · exact ⟨le_min (by norm_num) (by linarith), min_le_left _ _⟩
  · exact ⟨le_max_left _ _, max_le (by norm_num) (by linarith)⟩
  · refine ⟨le_min (by norm_num) ?_, min_le_left _ _⟩
    have hmax := le_max_left (1 : ℝ) (c.cameraPhi - 2)
    linarith

theorem cameraFold_phi_bounds (inputs : List CamInput) :
    ∀ c : Camera, 1 ≤ c.cameraPhi → c.cameraPhi ≤ 179 →
      1 ≤ (inputs.foldl cameraStep c).cameraPhi
        ∧ (inputs.foldl cameraStep c).cameraPhi ≤ 179 := by
  induction inputs with
  | nil => intro c h1 h2; exact ⟨h1, h2⟩
  | cons i rest ih =>
      intro c h1 h2
      have h := cameraStep_phi_bounds c i h1 h2
      exact ih (cameraStep c i) h.1 h.2

/-- Claim C7: starting from the initial vertical angle 45, the camera polar
angle stays within [1, 179] after every frame of key input (UP is clamped
below at 1, DOWN is clamped above at 179), while the horizontal angle is
never clamped or wrapped: each frame changes it by exactly the signed sum of
the two key deltas. -/
theorem camera_phi_clamped_theta_free (inputs : List CamInput) :
    (1 ≤ (cameraRun inputs).cameraPhi ∧ (cameraRun inputs).cameraPhi ≤ 179)
  ∧ ∀ (c : Camera) (inp : CamInput),
      (cameraStep c inp).cameraTheta =
        c.cameraTheta + (if inp.keyRight then rotationSpeed else 0)
          - (if inp.keyLeft then rotationSpeed else 0) := by
  constructor
  · exact cameraFold_phi_bounds inputs cameraInit (by norm_num [cameraInit])
      (by norm_num [cameraInit])
  · intro c inp
    unfold cameraStep
    rcases inp with ⟨r, l, u, d⟩
    dsimp only
    cases r <;> cases l <;> simp

/-- Claim C8: with zenith exactly 0 or exactly 180 degrees, the
spherical-to-Cartesian mapping of `Ray::updatePosition` yields the same
position for any two azimuth values, and that position lies on the vertical
axis (its x and z components are 0). -/
theorem degenerate_zenith_axis (len a1 a2 : ℝ) :
    (sphericalPos 0 a1 len = sphericalPos 0 a2 len
      ∧ (sphericalPos 0 a1 len).1 = 0 ∧ (sphericalPos 0 a1 len).2.2 = 0)
  ∧ (sphericalPos 180 a1 len = sphericalPos 180 a2 len
      ∧ (sphericalPos 180 a1 len).1 = 0 ∧ (sphericalPos 180 a1 len).2.2 = 0) := by
  unfold sphericalPos
  rw [radians_zero, radians_one_eighty]
  simp [Real.sin_zero, Real.sin_pi, mul_zero, zero_mul]

/-- Claim C1: in every reachable particle state — initial construction, after
any tick, hence after any advance or reset — the cached position equals the
spherical-to-Cartesian mapping of `(zenith, azimuth, currentLength)`:
`x = L·sin(zenith)·cos(azimuth)`, `y = L·cos(zenith)`,
`z = L·sin(zenith)·sin(azimuth)`, angles in degrees converted by `radians`. -/
theorem reachable_position_spherical (s : Ray) (hs : Reachable s) :
    (s.x, s.y, s.z) = sphericalPos s.zenith s.azimuth s.currentLength := by
  induction hs with
  | init => simp [Ray.init, sphericalPos]
  | step r1 r2 spheres ht ih =>
      rename_i t
      rcases hfind : (t.advance).findHit spheres with _ | sphere
      · by_cases hout : (t.advance).isOutsideCube
        · simp only [Ray.update, hfind]
          rw [if_pos hout]
          simp [Ray.reset, sphericalPos]
        · simp only [Ray.update, hfind]
          rw [if_neg hout]
          exact rfl
      · simp only [Ray.update, hfind]
        simp [Ray.reset, sphericalPos]

theorem reachable_position_spherical_witness :
    (Ray.init.x, Ray.init.y, Ray.init.z) =
      sphericalPos Ray.init.zenith Ray.init.azimuth Ray.init.currentLength :=
  reachable_position_spherical Ray.init Reachable.init

open Classical in
/-- Claim C2: a tick first increments `currentLength` by exactly `speed` and
recomputes the position from `(zenith, azimuth, currentLength)`, leaving the
angles, speed and grid size untouched; only then are the collision and
boundary tests evaluated, on that post-move state.  The advance step itself
takes no obstacle or bounds input and performs no check. -/
theorem advance_precedes_tests (s : Ray) (r1 r2 : ℕ) (spheres : List Sphere) :
    (s.advance).currentLength = s.currentLength + s.speed
  ∧ ((s.advance).x, (s.advance).y, (s.advance).z) =
      sphericalPos s.zenith s.azimuth (s.currentLength + s.speed)
  ∧ (s.advance).zenith = s.zenith
  ∧ (s.advance).azimuth = s.azimuth
  ∧ (s.advance).speed = s.speed
  ∧ (s.advance).gridHalfSize = s.gridHalfSize
  ∧ s.update r1 r2 spheres =
      (match (s.advance).findHit spheres with
       | some sphere => ((s.advance).reset r1 r2, Event.hitObstacle sphere)
       | none =>
           if (s.advance).isOutsideCube then ((s.advance).reset r1 r2, Event.hitBoundary)
           else (s.advance, Event.traveling)) :=
  ⟨rfl, rfl, rfl, rfl, rfl, rfl, rfl⟩

theorem findHit_isSome_of_hit (s : Ray) (spheres : List Sphere)
    (h : ∃ sp ∈ spheres, s.intersectsSphere sp.x sp.y sp.z sp.radius) :
    ∃ sp, s.findHit spheres = some sp := by
  induction spheres with
  | nil => simp at h
  | cons b bs ih =>
      by_cases hb : s.intersectsSphere b.x b.y b.z b.radius
      · exact ⟨b, by simp [Ray.findHit, if_pos hb]⟩
      · obtain ⟨sp, hsp, hhit⟩ := h
        rcases List.mem_cons.mp hsp with rfl | hsp
        · exact absurd hhit hb
        · obtain ⟨sp2, h2⟩ := ih ⟨sp, hsp, hhit⟩
          exact ⟨sp2, by simp [Ray.findHit, if_neg hb, h2]⟩

/-- Claim C3: on a tick whose post-move position is inside some obstacle and
simultaneously outside the grid bounds, the tick reports an obstacle hit and
never a boundary exit (the collision scan runs first and short-circuits the
boundary test). -/
theorem obstacle_priority_over_boundary (s : Ray) (r1 r2 : ℕ) (spheres : List Sphere)
    (hcol : ∃ sp ∈ spheres, (s.advance).intersectsSphere sp.x sp.y sp.z sp.radius)
    (_hout : (s.advance).isOutsideCube) :
    (∃ sp, (s.update r1 r2 spheres).2 = Event.hitObstacle sp)
  ∧ (s.update r1 r2 spheres).2 ≠ Event.hitBoundary := by
  obtain ⟨sp, hsp⟩ := findHit_isSome_of_hit (s.advance) spheres hcol
  refine ⟨⟨sp, ?_⟩, ?_⟩
  · simp [Ray.update, hsp]
  · simp [Ray.update, hsp]

/-- A ray pointing along the +x axis (zenith 90, azimuth 0) that steps from
the origin to distance 1 on its next tick; with grid half size 0.5 that
post-move position is outside the bounds. -/
noncomputable def rayPlusX : Ray :=
  { zenith := 90, azimuth := 0, currentLength := 0, speed := 1,
    gridHalfSize := 0.5, x := 0, y := 0, z := 0 }

/-- An obstacle centred exactly at the post-move position of `rayPlusX`. -/
def sphereOnX : Sphere := { x := 1, y := 0, z := 0, radius := 1 }

theorem rayPlusX_advance : rayPlusX.advance =
    { zenith := 90, azimuth := 0, currentLength := 1, speed := 1,
      gridHalfSize := 0.5, x := 1, y := 0, z := 0 } := by
  simp [rayPlusX, Ray.advance, Ray.updatePosition, sphericalPos,
    radians_ninety, radians_zero]

theorem obstacle_priority_over_boundary_witness :
    (∃ sp, (rayPlusX.update 0 0 [sphereOnX]).2 = Event.hitObstacle sp)
  ∧ (rayPlusX.update 0 0 [sphereOnX]).2 ≠ Event.hitBoundary :=
  obstacle_priority_over_boundary rayPlusX 0 0 [sphereOnX]
    ⟨sphereOnX, by simp, by
      rw [rayPlusX_advance]
      unfold Ray.intersectsSphere sphereOnX
      norm_num⟩
    (by rw [rayPlusX_advance]
        unfold Ray.isOutsideCube
        left
        norm_num)

/-- Claim C5: after every reset — whether triggered by an obstacle hit or by
a boundary exit — the travelled distance is exactly 0, the position is
exactly the origin, the new zenith is an integer in [0, 180), the new
azimuth is an integer in [0, 360), and the speed is unchanged. -/
theorem reset_exactness (s : Ray) (r1 r2 : ℕ) (spheres : List Sphere)
    (h : (s.update r1 r2 spheres).2 ≠ Event.traveling) :
    (s.update r1 r2 spheres).1.currentLength = 0
  ∧ (s.update r1 r2 spheres).1.x = 0
  ∧ (s.update r1 r2 spheres).1.y = 0
  ∧ (s.update r1 r2 spheres).1.z = 0
  ∧ (∃ n : ℕ, n < 180 ∧ (s.update r1 r2 spheres).1.zenith = (n : ℝ))
  ∧ (∃ m : ℕ, m < 360 ∧ (s.update r1 r2 spheres).1.azimuth = (m : ℝ))
  ∧ (s.update r1 r2 spheres).1.speed = s.speed := by
  rcases hfind : (s.advance).findHit spheres with _ | sphere
  · by_cases hout : (s.advance).isOutsideCube
    · simp only [Ray.update, hfind]
      rw [if_pos hout]
      exact ⟨rfl, rfl, rfl, rfl,
        ⟨r1 % 180, Nat.mod_lt _ (by norm_num), rfl⟩,
        ⟨r2 % 360, Nat.mod_lt _ (by norm_num), rfl⟩, rfl⟩
    · exfalso
      apply h
      simp only [Ray.update, hfind]
      rw [if_neg hout]
  · simp only [Ray.update, hfind]
    exact ⟨rfl, rfl, rfl, rfl,
      ⟨r1 % 180, Nat.mod_lt _ (by norm_num), rfl⟩,
      ⟨r2 % 360, Nat.mod_lt _ (by norm_num), rfl⟩, rfl⟩

theorem reset_exactness_witness :
    (rayPlusX.update 0 0 []).1.currentLength = 0 :=
  (reset_exactness rayPlusX 0 0 [] (by
    have hout : (rayPlusX.advance).isOutsideCube := by
      rw [rayPlusX_advance]
      unfold Ray.isOutsideCube
      left
      norm_num
    have hb : (rayPlusX.update 0 0 []).2 = Event.hitBoundary := by
      simp only [Ray.update, Ray.findHit]
      rw [if_pos hout]
    rw [hb]
    intro hcon
    exact Event.noConfusion hcon)).1

theorem update_gridHalfSize (s : Ray) (r1 r2 : ℕ) (spheres : List Sphere) :
    (s.update r1 r2 spheres).1.gridHalfSize = s.gridHalfSize := by
  rcases hfind : (s.advance).findHit spheres with _ | sphere
  · by_cases hout : (s.advance).isOutsideCube
    · simp only [Ray.update, hfind]
      rw [if_pos hout]
      exact rfl
    · simp only [Ray.update, hfind]
      rw [if_neg hout]
      exact rfl
  · simp only [Ray.update, hfind]
    exact rfl

theorem reachable_gridHalfSize {s : Ray} (hs : Reachable s) :
    s.gridHalfSize = 1 / 2 := by
  induction hs with
  | init => norm_num [Ray.init, GRID_SIZE, CELL_SIZE]
  | step r1 r2 spheres ht ih => rw [update_gridHalfSize]; exact ih

/-- Claim C9: every tick of a reachable particle ends with the position
inside the grid bounds (each coordinate magnitude at most the grid half
size): both reset branches place the particle at the origin, and a tick
without reset has just passed the boundary test. -/
theorem tick_ends_inside (s : Ray) (r1 r2 : ℕ) (spheres : List Sphere)
    (hs : Reachable s) :
    |(s.update r1 r2 spheres).1.x| ≤ (s.update r1 r2 spheres).1.gridHalfSize
  ∧ |(s.update r1 r2 spheres).1.y| ≤ (s.update r1 r2 spheres).1.gridHalfSize
  ∧ |(s.update r1 r2 spheres).1.z| ≤ (s.update r1 r2 spheres).1.gridHalfSize := by
  have hgh : s.gridHalfSize = 1 / 2 := reachable_gridHalfSize hs
  rcases hfind : (s.advance).findHit spheres with _ | sphere
  · by_cases hout : (s.advance).isOutsideCube
    · simp only [Ray.update, hfind]
      rw [if_pos hout]
      refine ⟨?_, ?_, ?_⟩ <;>
        · show |(0 : ℝ)| ≤ s.gridHalfSize
          rw [hgh]
          norm_num
    · simp only [Ray.update, hfind]
      rw [if_neg hout]
      unfold Ray.isOutsideCube at hout
      push_neg at hout
      exact hout
  · simp only [Ray.update, hfind]
    refine ⟨?_, ?_, ?_⟩ <;>
      · show |(0 : ℝ)| ≤ s.gridHalfSize
        rw [hgh]
        norm_num

theorem tick_ends_inside_witness :
    |(Ray.init.update 0 0 []).1.x| ≤ (Ray.init.update 0 0 []).1.gridHalfSize :=
  (tick_ends_inside Ray.init 0 0 [] Reachable.init).1

/-- Claim C10: the zenith is 45 at construction, every reset redraws it as an
integer in [0, 179], and no other operation modifies it, so in every
reachable state it lies in [0, 180) — the degenerate value 180 is never
reached. -/
theorem zenith_always_in_range (s : Ray) (hs : Reachable s) :
    Ray.init.zenith = 45 ∧ 0 ≤ s.zenith ∧ s.zenith < 180 := by
  refine ⟨rfl, ?_⟩
  induction hs with
  | init =>
      constructor <;> norm_num [Ray.init]
  | step r1 r2 spheres ht ih =>
      rename_i t
      rcases hfind : (t.advance).findHit spheres with _ | sphere
      · by_cases hout : (t.advance).isOutsideCube
        · simp only [Ray.update, hfind]
          rw [if_pos hout]
          refine ⟨?_, ?_⟩
          · show (0 : ℝ) ≤ ((r1 % 180 : ℕ) : ℝ)
            exact Nat.cast_nonneg _
          · show ((r1 % 180 : ℕ) : ℝ) < 180
            exact_mod_cast Nat.mod_lt r1 (by norm_num)
        · simp only [Ray.update, hfind]
          rw [if_neg hout]
          exact ih
      · simp only [Ray.update, hfind]
        refine ⟨?_, ?_⟩
        · show (0 : ℝ) ≤ ((r1 % 180 : ℕ) : ℝ)
          exact Nat.cast_nonneg _
        · show ((r1 % 180 : ℕ) : ℝ) < 180
          exact_mod_cast Nat.mod_lt r1 (by norm_num)

theorem zenith_always_in_range_witness :
    Ray.init.zenith = 45 ∧ 0 ≤ Ray.init.zenith ∧ Ray.init.zenith < 180 :=
  zenith_always_in_range Ray.init Reachable.init
